import Mathlib

/-
Shallow embedding of `src/packages/ckeditor5-table/src/converters/upcasttable.ts`
(the table upcast conversion of ckeditor5-combined).

The pure table scanner (`scanTable`, `scanRowForHeadingColumns`) is translated
directly from the source.  The conversion-engine primitives it is registered on
(consumable tracker, dispatcher, writer, safe insert) live outside `src/` and
are modelled from the spec where a claim needs them; each such definition says
so in its doc comment.
-/

/-- A node of the source (view) tree: an element with a tag name, attributes,
classes and ordered children, or a text node.  This mirrors the view-node
interface the converters use (`name`, `getChildren`, `getAttribute`,
`isEmpty`, `is('element', name)`). -/
inductive ViewNode where
  | element (nm : String) (attrs : List (String × String)) (classes : List String)
      (children : List ViewNode)
  | text (data : String)

/-- `node.name`: the tag name of an element; `undefined` (here `none`) for a
text node. -/
def ViewNode.name : ViewNode → Option String
  | .element nm _ _ _ => some nm
  | .text _ => none

/-- `node.getChildren()` as a list (text nodes have no children). -/
def ViewNode.getChildren : ViewNode → List ViewNode
  | .element _ _ _ children => children
  | .text _ => []

/-- `node.getAttribute(key)`. -/
def ViewNode.getAttr (v : ViewNode) (key : String) : Option String :=
  match v with
  | .element _ attrs _ _ => (attrs.find? (fun p => p.1 == key)).map (fun p => p.2)
  | .text _ => none

/-- `node.isEmpty`: an element with no children (a text node with no data). -/
def ViewNode.isEmptyNode : ViewNode → Bool
  | .element _ _ _ children => children.isEmpty
  | .text s => s.isEmpty

/-- A JavaScript number as the scanner uses it: `NaN` or an integer. -/
inductive JSNum where
  | nan
  | int (n : Int)
deriving DecidableEq

/-- JS addition on such numbers (`NaN` propagates). -/
def jsAdd : JSNum → JSNum → JSNum
  | .int a, .int b => .int (a + b)
  | _, _ => .nan

/-- Truthiness of a JS number: `NaN` and `0` are falsy. -/
def jsFalsyN : JSNum → Bool
  | .nan => true
  | .int n => n == 0

/-- Truthiness of a possibly-`undefined` JS number. -/
def jsFalsyOpt : Option JSNum → Bool
  | none => true
  | some v => jsFalsyN v

/-- JS `<` between a number and a possibly-`undefined` number: `false` unless
both sides are actual integers. -/
def jsLtOpt : JSNum → Option JSNum → Bool
  | .int a, some (.int b) => decide (a < b)
  | _, _ => false

/-- `x || 0` for a possibly-`undefined` JS number (used on the final
`headingColumns`). -/
def jsOr0 : Option JSNum → JSNum
  | none => .int 0
  | some v => if jsFalsyN v then .int 0 else v

/-- Digit value for radix ≤ 16. -/
def hexDigitVal (c : Char) : Nat :=
  if c.isDigit then c.toNat - '0'.toNat
  else if 'a' ≤ c ∧ c ≤ 'f' then c.toNat - 'a'.toNat + 10
  else if 'A' ≤ c ∧ c ≤ 'F' then c.toNat - 'A'.toNat + 10
  else 0

/-- Is `c` a digit of the given radix (10 or 16)? -/
def isDigitIn (radix : Nat) (c : Char) : Bool :=
  if radix == 16 then
    c.isDigit || ('a' ≤ c && c ≤ 'f') || ('A' ≤ c && c ≤ 'F')
  else
    c.isDigit

/-- ASCII whitespace skipped by JS `parseInt`. -/
def isJsSpace (c : Char) : Bool :=
  c == ' ' || c == '\t' || c == '\n' || c == '\r' || c == '\x0b' || c == '\x0c'

/-- Digits to the number they denote in the given radix. -/
def digitsToNat (radix : Nat) (ds : List Char) : Nat :=
  ds.foldl (fun n c => n * radix + hexDigitVal c) 0

/-- JS `parseInt(s)` (no explicit radix: decimal, or hexadecimal after an
`0x`/`0X` prefix): skip leading whitespace, read an optional sign, then the
longest run of digits; `NaN` when that run is empty. -/
def jsParseInt (s : String) : JSNum :=
  let cs := s.toList.dropWhile isJsSpace
  let signAndRest : Int × List Char :=
    match cs with
    | '-' :: rest => (-1, rest)
    | '+' :: rest => (1, rest)
    | _ => (1, cs)
  let radixAndDigits : Nat × List Char :=
    match signAndRest.2 with
    | '0' :: 'x' :: rest => (16, rest)
    | '0' :: 'X' :: rest => (16, rest)
    | rest => (10, rest)
  let digits := radixAndDigits.2.takeWhile (isDigitIn radixAndDigits.1)
  if digits.isEmpty then .nan
  else .int (signAndRest.1 * (digitsToNat radixAndDigits.1 digits : Int))

/-- `parseInt( th.getAttribute('colspan') as string || '1' )`: a missing or
empty attribute falls back to the string `"1"`. -/
def colspanOf (th : ViewNode) : JSNum :=
  jsParseInt (match th.getAttr "colspan" with
    | none => "1"
    | some s => if s == "" then "1" else s)

/-- The `filter` in `scanRowForHeadingColumns`: only `<th>`/`<td>` children of
the row (this drops text nodes). -/
def cellChildren (tr : ViewNode) : List ViewNode :=
  tr.getChildren.filter (fun child => child.name == some "th" || child.name == some "td")

/-- The `while` loop of `scanRowForHeadingColumns`: sum the colspans of the
leading adjacent `<th>` cells, stopping at the first non-`<th>`. -/
def leadingThRun : List ViewNode → JSNum → JSNum
  | [], acc => acc
  | c :: rest, acc =>
    if c.name == some "th" then leadingThRun rest (jsAdd acc (colspanOf c)) else acc

/-- `scanRowForHeadingColumns(tr)`: the row's leading heading-column run. -/
def scanRowForHeadingColumns (tr : ViewNode) : JSNum :=
  leadingThRun (cellChildren tr) (.int 0)

/-- The condition of `scanTable`'s first branch: the row is in the first
`<thead>`, or it is in a `<tbody>`, has at least one child, and every child is
a `<th>` element. -/
def isHeadingRow (isFirstHead isTbody : Bool) (tr : ViewNode) : Bool :=
  isFirstHead ||
    (isTbody && !tr.getChildren.isEmpty &&
      tr.getChildren.all (fun e => e.name == some "th"))

/-- The update of the mutable `headingColumns` in `scanTable`:
`if (!headingColumns || headingCols < headingColumns) headingColumns = headingCols`. -/
def hcStep (acc : Option JSNum) (headingCols : JSNum) : Option JSNum :=
  if jsFalsyOpt acc || jsLtOpt headingCols acc then some headingCols else acc

/-- The mutable state of `scanTable`'s loops. -/
structure ScanState where
  headingRows : Nat
  headingColumns : Option JSNum
  footerRows : Nat
  headRows : List ViewNode
  bodyRows : List ViewNode
  footRows : List ViewNode
  seenThead : Bool
  seenTfoot : Bool

/-- The body of `scanTable`'s inner `for (const tr of trs)` loop. -/
def processRow (isFirstHead isFirstFoot isTbody : Bool) (st : ScanState)
    (tr : ViewNode) : ScanState :=
  if isHeadingRow isFirstHead isTbody tr then
    { st with headingRows := st.headingRows + 1, headRows := st.headRows ++ [tr] }
  else if isFirstFoot then
    { st with footerRows := st.footerRows + 1, footRows := st.footRows ++ [tr] }
  else
    { st with
        bodyRows := st.bodyRows ++ [tr],
        headingColumns := hcStep st.headingColumns (scanRowForHeadingColumns tr) }

/-- The guard of `scanTable`'s outer loop: only `<tbody>`, `<thead>` and
`<tfoot>` children are scanned. -/
def isSectionName : Option String → Bool
  | some n => n == "tbody" || n == "thead" || n == "tfoot"
  | none => false

/-- `tableChild.getChildren().filter(el => el.is('element', 'tr'))`. -/
def trsOf (sec : ViewNode) : List ViewNode :=
  sec.getChildren.filter (fun el => el.name == some "tr")

/-- `scanTable`'s outer loop over the table's children.  The boolean
`seenThead`/`seenTfoot` flags stand for the `firstTheadElement` /
`firstTfootElement` variables: a section is the first `<thead>` (resp.
`<tfoot>`) exactly when it has that name and no earlier child did. -/
def scanSections : ScanState → List ViewNode → ScanState
  | st, [] => st
  | st, sec :: rest =>
    if isSectionName sec.name then
      scanSections
        ((trsOf sec).foldl
          (processRow (sec.name == some "thead" && !st.seenThead)
            (sec.name == some "tfoot" && !st.seenTfoot)
            (sec.name == some "tbody"))
          { st with
            seenThead := st.seenThead || sec.name == some "thead",
            seenTfoot := st.seenTfoot || sec.name == some "tfoot" })
        rest
    else
      scanSections st rest

/-- The record `scanTable` returns. -/
structure ScanResult where
  headingRows : Nat
  headingColumns : JSNum
  footerRows : Nat
  rows : List ViewNode

/-- The initial state of `scanTable` (`headingColumns` starts `undefined`). -/
def initScanState : ScanState :=
  { headingRows := 0, headingColumns := none, footerRows := 0,
    headRows := [], bodyRows := [], footRows := [],
    seenThead := false, seenTfoot := false }

/-- `scanTable(viewTable)`: classify every row, count heading and footer rows,
fold the heading-column count over the body rows, and return the rows as
`[...headRows, ...bodyRows, ...footRows]`. -/
def scanTable (viewTable : ViewNode) : ScanResult :=
  let st := scanSections initScanState viewTable.getChildren
  { headingRows := st.headingRows,
    headingColumns := jsOr0 st.headingColumns,
    footerRows := st.footerRows,
    rows := st.headRows ++ st.bodyRows ++ st.footRows }

/-- The classification `scanTable` assigns to a row (derived observation). -/
inductive RowClass where
  | heading
  | body
  | footer
deriving DecidableEq

/-- The class `scanTable`'s branches give one row, as a function of whether its
section is the first `<thead>`, the first `<tfoot>`, or a `<tbody>`. -/
def classRow (isFirstHead isFirstFoot isTbody : Bool) (tr : ViewNode) : RowClass :=
  if isHeadingRow isFirstHead isTbody tr then .heading
  else if isFirstFoot then .footer
  else .body

/-- The rows of one section child paired with their classification, given
whether a `<thead>` / `<tfoot>` was already seen earlier. -/
def classifySection (seenH seenF : Bool) (sec : ViewNode) : List (ViewNode × RowClass) :=
  (trsOf sec).map (fun tr =>
    (tr, classRow (sec.name == some "thead" && !seenH)
      (sec.name == some "tfoot" && !seenF) (sec.name == some "tbody") tr))

/-- All rows of a run of section children, in document order, paired with their
classification. -/
def classifyRowsGo : Bool → Bool → List ViewNode → List (ViewNode × RowClass)
  | _, _, [] => []
  | seenH, seenF, sec :: rest =>
    if isSectionName sec.name then
      classifySection seenH seenF sec ++
        classifyRowsGo (seenH || sec.name == some "thead")
          (seenF || sec.name == some "tfoot") rest
    else
      classifyRowsGo seenH seenF rest

/-- All rows of a table, in document order, with the class `scanTable` gives
them. -/
def classifiedRows (t : ViewNode) : List (ViewNode × RowClass) :=
  classifyRowsGo false false t.getChildren

/-- Project the rows of one class out of a classified row list, keeping their
order. -/
def picks (c : RowClass) : List (ViewNode × RowClass) → List ViewNode
  | [] => []
  | p :: rest => if p.2 = c then p.1 :: picks c rest else picks c rest

/-- The rows of a table that `scanTable` classifies as `c`, in document order. -/
def rowsOfClass (t : ViewNode) (c : RowClass) : List ViewNode :=
  picks c (classifiedRows t)

/-- The leading heading-column runs of the body-classified rows, in document
order. -/
def bodyRuns (t : ViewNode) : List JSNum :=
  (rowsOfClass t .body).map scanRowForHeadingColumns

/-- The example table of the spec:
`<table><tbody><tr><td>2</td></tr></tbody><thead><tr><td>1</td></tr></thead><tbody><tr><td>3</td></tr></tbody></table>`. -/
def exampleTr1 : ViewNode := .element "tr" [] [] [.element "td" [] [] [.text "1"]]

/-- The `<tr><td>2</td></tr>` row of the example table. -/
def exampleTr2 : ViewNode := .element "tr" [] [] [.element "td" [] [] [.text "2"]]

/-- The `<tr><td>3</td></tr>` row of the example table. -/
def exampleTr3 : ViewNode := .element "tr" [] [] [.element "td" [] [] [.text "3"]]

/-- The example table itself (body `2`, head `1`, body `3`). -/
def exampleTable : ViewNode :=
  .element "table" [] []
    [ .element "tbody" [] [] [exampleTr2],
      .element "thead" [] [] [exampleTr1],
      .element "tbody" [] [] [exampleTr3] ]

/-- The integer denoted by a JS number (`NaN` mapped to `0`; only applied to
actual integers in the statements below). -/
def jsToInt : JSNum → Int
  | .nan => 0
  | .int n => n

/-- The minimum of a list of JS numbers, `0` for the empty list. -/
def jsMinList (l : List JSNum) : JSNum :=
  match l.map jsToInt with
  | [] => .int 0
  | x :: xs => .int (xs.foldl min x)

/-- The suffix of a run list strictly after its last falsy (`0` or `NaN`)
entry; the whole list when no entry is falsy. -/
def suffixAfterLastFalsy (l : List JSNum) : List JSNum :=
  (l.reverse.takeWhile (fun r => !jsFalsyN r)).reverse

/-- Is this run an actual non-negative integer (the shape every run has when
`colspan` attributes are absent or plain digit strings)? -/
def isNNRun : JSNum → Bool
  | .nan => false
  | .int n => decide (0 ≤ n)

/-- Definition following the spec's words for claim C2 (refinement
comparison): the minimum, over all rows classified `Body`, of that row's
leading heading-cell run, and `0` when there are no body rows. -/
def claimedMinHeadingColumns (t : ViewNode) : JSNum :=
  jsMinList (bodyRuns t)

/-- A body row with leading heading run `0`: `<tr><td>a</td></tr>`. -/
def trRun0 : ViewNode := .element "tr" [] [] [.element "td" [] [] [.text "a"]]

/-- A body row with leading heading run `3` that is not all-`<th>`:
`<tr><th colspan="3">b</th><td>c</td></tr>`. -/
def trRun3 : ViewNode :=
  .element "tr" [] []
    [.element "th" [("colspan", "3")] [] [.text "b"], .element "td" [] [] [.text "c"]]

/-- A table whose two body rows have leading runs `0` then `3`. -/
def exTwoRuns : ViewNode :=
  .element "table" [] [] [.element "tbody" [] [] [trRun0, trRun3]]

/-- A `<tbody>` row with a text child before its only (heading) cell:
`<tr>x<th></th></tr>`.  All of its cells are `<th>`, but not all of its
children are. -/
def exMixedTr : ViewNode :=
  .element "tr" [] [] [.text "x", .element "th" [] [] []]

/-- The `<tbody>` element of `exMixedTable`. -/
def exMixedTbody : ViewNode := .element "tbody" [] [] [exMixedTr]

/-- A table holding `exMixedTr` in a `<tbody>`. -/
def exMixedTable : ViewNode := .element "table" [] [] [exMixedTbody]

/-- Whether a `<thead>`-like child named `nm` occurs in `secs` (or the flag was
already set): the value of the `firstThead`/`firstTfoot` tracking after a run
of children. -/
def seenAfter (flag : Bool) (nm : String) (secs : List ViewNode) : Bool :=
  flag || secs.any (fun s => s.name == some nm)

/-- An all-`<th>` row, for the duplicate-`<thead>` example. -/
def exHeadTrA : ViewNode := .element "tr" [] [] [.element "th" [] [] [.text "a"]]

/-- A second all-`<th>` row, for the duplicate-`<thead>` example. -/
def exHeadTrB : ViewNode := .element "tr" [] [] [.element "th" [] [] [.text "b"]]

/-- The first `<thead>` of the duplicate-`<thead>` example. -/
def exFirstThead : ViewNode := .element "thead" [] [] [exHeadTrA]

/-- The second `<thead>` of the duplicate-`<thead>` example. -/
def exSecondThead : ViewNode := .element "thead" [] [] [exHeadTrB]

/-- A table with two `<thead>` sections. -/
def exTwoTheads : ViewNode := .element "table" [] [] [exFirstThead, exSecondThead]

/-- A node of the destination (model) tree: a name, attributes (the table
attributes are numeric) and ordered children. -/
inductive ModelNode where
  | node (nm : String) (attrs : List (String × Int)) (children : List ModelNode)

/-- The ordered children of a model node. -/
def ModelNode.children : ModelNode → List ModelNode
  | .node _ _ children => children

/-- Modelled from the spec: the conversion engine's consumable tracker
(`conversionApi.consumable`), which is not under `src/`.  A consumption record
maps a (source-node identity, aspect) pair to claimed (`true`) or unclaimed
(`false`). -/
abbrev Consumable := Nat × String → Bool

/-- Modelled from the spec: `consumable.test(node, aspects)` — true iff none
of the requested aspects were previously consumed for this node. -/
def testAspects (m : Consumable) (nid : Nat) (aspects : List String) : Bool :=
  aspects.all (fun a => !m (nid, a))

/-- Modelled from the spec: `consumable.consume(node, aspects)` — marks the
aspects consumed. -/
def consumeAspects (m : Consumable) (nid : Nat) (aspects : List String) : Consumable :=
  fun p => if p.1 == nid && aspects.contains p.2 then true else m p

/-- Modelled from the spec: `consumable.revert(node, aspects)` — clears the
aspects, restoring the pre-consumption state. -/
def revertAspects (m : Consumable) (nid : Nat) (aspects : List String) : Consumable :=
  fun p => if p.1 == nid && aspects.contains p.2 then false else m p

/-- The attribute object `upcastTable` builds: each of the three counts is set
only when truthy, in source order (`headingColumns`, then `headingRows`, then
`footerRows`). -/
def tableAttributes (scan : ScanResult) : List (String × Int) :=
  (if jsFalsyN scan.headingColumns then []
   else [("headingColumns", jsToInt scan.headingColumns)])
  ++ (if scan.headingRows == 0 then [] else [("headingRows", (scan.headingRows : Int))])
  ++ (if scan.footerRows == 0 then [] else [("footerRows", (scan.footerRows : Int))])

/-- Modelled from the spec: `createEmptyTableCell` (defined in
`utils/common.js`, which is not under `src/`) synthesizes one empty cell. -/
def emptyTableCell : ModelNode := .node "tableCell" [] []

/-- What the `element:table` handler leaves behind: the updated consumable
state and the reported model table (`none` when the handler declined). -/
structure UpcastOutcome where
  consumed : Consumable
  result : Option ModelNode

/-- The `element:table` handler of `upcastTable`.  The recursive child
conversions (`convertItem` on each row, `convertChildren` on the remaining
children) and the schema test of `safeInsert` happen in the engine outside
`src/` and are modelled from the spec as oracles: each child conversion
returns the model nodes it appends at the end of the table. -/
def upcastTable (schemaAccepts : ModelNode → Bool)
    (convertRowAt : ViewNode → List ModelNode)
    (convertRemainingChildren : ViewNode → List ModelNode)
    (idOf : ViewNode → Nat) (viewTable : ViewNode) (m : Consumable) : UpcastOutcome :=
  if !testAspects m (idOf viewTable) ["name"] then ⟨m, none⟩
  else
    let scan := scanTable viewTable
    let attrs := tableAttributes scan
    if !schemaAccepts (.node "table" attrs []) then ⟨m, none⟩
    else
      let m1 := consumeAspects m (idOf viewTable) ["name"]
      let converted := (scan.rows.foldl (fun acc r => acc ++ convertRowAt r) [])
        ++ convertRemainingChildren viewTable
      if converted.isEmpty then
        ⟨m1, some (.node "table" attrs [ModelNode.node "tableRow" [] [emptyTableCell]])⟩
      else
        ⟨m1, some (.node "table" attrs converted)⟩

/-- `getViewTableFromFigure`: the first child of the figure that is a
`<table>` element. -/
def getViewTableFromFigure (figureView : ViewNode) : Option ViewNode :=
  figureView.getChildren.find? (fun c => c.name == some "table")

/-- The `element:figure` handler of `upcastTableFigure`.  The dispatch of the
inner table (`convertItem`) and the conversion of the figure's remaining
children are engine recursion outside `src/`, modelled from the spec as
oracles; `convertItem` returns the produced model table (if any) and the
consumable state it leaves. -/
def upcastTableFigure (convertItem : ViewNode → Consumable → Option ModelNode × Consumable)
    (appendRemainingChildren : ViewNode → ModelNode → ModelNode)
    (idOf : ViewNode → Nat) (figure : ViewNode) (m : Consumable) :
    Consumable × Option ModelNode :=
  if !testAspects m (idOf figure) ["name", "class:table"] then (m, none)
  else
    match getViewTableFromFigure figure with
    | none => (m, none)
    | some viewTable =>
      if !testAspects m (idOf viewTable) ["name"] then (m, none)
      else
        let m1 := consumeAspects m (idOf figure) ["name", "class:table"]
        match convertItem viewTable m1 with
        | (none, m2) => (revertAspects m2 (idOf figure) ["name", "class:table"], none)
        | (some modelTable, m2) => (m2, some (appendRemainingChildren figure modelTable))

/-- The high-priority `element:tr` handler of `skipEmptyTableRow`: `true` iff
it stops the event (`data.viewItem.isEmpty && data.modelCursor.index == 0`). -/
def skipEmptyTableRow (viewItem : ViewNode) (modelCursorIndex : Nat) : Bool :=
  viewItem.isEmptyNode && modelCursorIndex == 0

/-- `node.is('element', '$marker')`. -/
def isMarkerNode : ModelNode → Bool
  | .node nm _ _ => nm == "$marker"

/-- The low-priority cell handler of `ensureParagraphInTableCell`, as a
function from the converted model cell (when a model range was produced,
otherwise `none` and the handler skips) to the repaired cell: an empty source
cell gets one empty paragraph at its start; a cell whose children are all
`$marker` elements gets a paragraph at its start into which all those markers
are moved in order. -/
def ensureParagraphInTableCell (viewItem : ViewNode) (modelCell : Option ModelNode) :
    Option ModelNode :=
  match modelCell with
  | none => none
  | some (.node nm attrs children) =>
    if viewItem.isEmptyNode then
      some (.node nm attrs (.node "paragraph" [] [] :: children))
    else if children.all isMarkerNode then
      some (.node nm attrs [.node "paragraph" [] children])
    else
      some (.node nm attrs children)

/-- The cell after the repair handler ran (the handler always reports a cell
when a range was produced). -/
def repairedCell (viewItem : ViewNode) (cell : ModelNode) : ModelNode :=
  (ensureParagraphInTableCell viewItem (some cell)).getD cell

/-- Witness fixture: a `<table>` with no children at all. -/
def wEmptyViewTable : ViewNode := .element "table" [] [] []

/-- Witness fixture: a consumable state with nothing consumed. -/
def wNoConsume : Consumable := fun _ => false

/-- Witness fixture: an identity assignment distinguishing tables from other
nodes. -/
def wIdOf : ViewNode → Nat := fun v => if v.name == some "table" then 1 else 0

/-- Witness fixture: a child conversion producing nothing. -/
def wNoRows : ViewNode → List ModelNode := fun _ => []

/-- Witness fixture: a destination schema accepting everything. -/
def wSchemaYes : ModelNode → Bool := fun _ => true

/-- Witness fixture: a destination schema rejecting everything. -/
def wSchemaNo : ModelNode → Bool := fun _ => false

/-- Witness fixture: a `<figure class="table">` wrapping an empty table. -/
def wFigure : ViewNode := .element "figure" [] ["table"] [wEmptyViewTable]

/-- Witness fixture: an inner-table dispatch producing no model node and
consuming nothing. -/
def wConvNone : ViewNode → Consumable → Option ModelNode × Consumable :=
  fun _ mm => (none, mm)

/-- Witness fixture: a remaining-children conversion that appends nothing. -/
def wAppendId : ViewNode → ModelNode → ModelNode := fun _ t => t

/-- Witness fixture: a marker node. -/
def wMarker1 : ModelNode := .node "$marker" [] []

/-- Witness fixture: a second, distinct marker node. -/
def wMarker2 : ModelNode := .node "$marker" [("n", 2)] []

/-- Witness fixture: a model cell holding only the two markers. -/
def wMarkerCell : ModelNode := .node "tableCell" [] [wMarker1, wMarker2]

/-- Witness fixture: an empty source cell. -/
def wTdEmpty : ViewNode := .element "td" [] [] []

/-- Witness fixture: a non-empty source cell. -/
def wTdText : ViewNode := .element "td" [] [] [.text "x"]

theorem picks_append (c : RowClass) (l1 l2 : List (ViewNode × RowClass)) :
    picks c (l1 ++ l2) = picks c l1 ++ picks c l2 := by
  induction l1 with
  | nil => simp [picks]
  | cons p rest ih =>
    by_cases h : p.2 = c
    · simp [picks, h, ih]
    · simp [picks, h, ih]

/-- One step of `scanTable`'s inner row loop, for each classification. -/
theorem foldRows_spec (iH iF iT : Bool) :
    ∀ (trs : List ViewNode) (st : ScanState),
      ((trs.foldl (processRow iH iF iT) st).headRows
          = st.headRows ++ picks .heading (trs.map (fun tr => (tr, classRow iH iF iT tr))))
      ∧ ((trs.foldl (processRow iH iF iT) st).bodyRows
          = st.bodyRows ++ picks .body (trs.map (fun tr => (tr, classRow iH iF iT tr))))
      ∧ ((trs.foldl (processRow iH iF iT) st).footRows
          = st.footRows ++ picks .footer (trs.map (fun tr => (tr, classRow iH iF iT tr))))
      ∧ ((trs.foldl (processRow iH iF iT) st).headingRows
          = st.headingRows
              + (picks .heading (trs.map (fun tr => (tr, classRow iH iF iT tr)))).length)
      ∧ ((trs.foldl (processRow iH iF iT) st).footerRows
          = st.footerRows
              + (picks .footer (trs.map (fun tr => (tr, classRow iH iF iT tr)))).length)
      ∧ ((trs.foldl (processRow iH iF iT) st).headingColumns
          = ((picks .body (trs.map (fun tr => (tr, classRow iH iF iT tr)))).map
              scanRowForHeadingColumns).foldl hcStep st.headingColumns)
      ∧ ((trs.foldl (processRow iH iF iT) st).seenThead = st.seenThead)
      ∧ ((trs.foldl (processRow iH iF iT) st).seenTfoot = st.seenTfoot) := by
  intro trs
  induction trs with
  | nil => intro st; simp [picks]
  | cons tr rest ih =>
    intro st
    by_cases h1 : isHeadingRow iH iT tr = true
    · have hcl : classRow iH iF iT tr = RowClass.heading := by simp [classRow, h1]
      have hpr : processRow iH iF iT st tr
          = { st with headingRows := st.headingRows + 1, headRows := st.headRows ++ [tr] } := by
        simp [processRow, h1]
      obtain ⟨e1, e2, e3, e4, e5, e6, e7, e8⟩ := ih (processRow iH iF iT st tr)
      simp only [hpr] at e1 e2 e3 e4 e5 e6 e7 e8
      refine ⟨?_, ?_, ?_, ?_, ?_, ?_, ?_, ?_⟩ <;>
        simp [List.foldl_cons, e1, e2, e3, e4, e5, e6, e7, e8, hpr, hcl, picks] <;> omega
    · by_cases h2 : iF = true
      · have hcl : classRow iH iF iT tr = RowClass.footer := by simp [classRow, h1, h2]
        have hpr : processRow iH iF iT st tr
            = { st with footerRows := st.footerRows + 1, footRows := st.footRows ++ [tr] } := by
          simp [processRow, h1, h2]
        obtain ⟨e1, e2, e3, e4, e5, e6, e7, e8⟩ := ih (processRow iH iF iT st tr)
        simp only [hpr] at e1 e2 e3 e4 e5 e6 e7 e8
        refine ⟨?_, ?_, ?_, ?_, ?_, ?_, ?_, ?_⟩ <;>
          simp [List.foldl_cons, e1, e2, e3, e4, e5, e6, e7, e8, hpr, hcl, picks] <;> omega
      · have hcl : classRow iH iF iT tr = RowClass.body := by simp [classRow, h1, h2]
        have hpr : processRow iH iF iT st tr
            = { st with
                  bodyRows := st.bodyRows ++ [tr],
                  headingColumns := hcStep st.headingColumns (scanRowForHeadingColumns tr) } := by
          simp [processRow, h1, h2]
        obtain ⟨e1, e2, e3, e4, e5, e6, e7, e8⟩ := ih (processRow iH iF iT st tr)
        simp only [hpr] at e1 e2 e3 e4 e5 e6 e7 e8
        refine ⟨?_, ?_, ?_, ?_, ?_, ?_, ?_, ?_⟩ <;>
          simp [List.foldl_cons, e1, e2, e3, e4, e5, e6, e7, e8, hpr, hcl, picks] <;> omega

/-- `scanTable`'s outer loop, related to the document-order classification of
all rows. -/
theorem scanSections_spec :
    ∀ (secs : List ViewNode) (st : ScanState),
      ((scanSections st secs).headRows
          = st.headRows ++ picks .heading (classifyRowsGo st.seenThead st.seenTfoot secs))
      ∧ ((scanSections st secs).bodyRows
          = st.bodyRows ++ picks .body (classifyRowsGo st.seenThead st.seenTfoot secs))
      ∧ ((scanSections st secs).footRows
          = st.footRows ++ picks .footer (classifyRowsGo st.seenThead st.seenTfoot secs))
      ∧ ((scanSections st secs).headingRows
          = st.headingRows
              + (picks .heading (classifyRowsGo st.seenThead st.seenTfoot secs)).length)
      ∧ ((scanSections st secs).footerRows
          = st.footerRows
              + (picks .footer (classifyRowsGo st.seenThead st.seenTfoot secs)).length)
      ∧ ((scanSections st secs).headingColumns
          = ((picks .body (classifyRowsGo st.seenThead st.seenTfoot secs)).map
              scanRowForHeadingColumns).foldl hcStep st.headingColumns) := by
  intro secs
  induction secs with
  | nil => intro st; simp [scanSections, classifyRowsGo, picks]
  | cons sec rest ih =>
    intro st
    by_cases hs : isSectionName sec.name = true
    · obtain ⟨f1, f2, f3, f4, f5, f6, f7, f8⟩ :=
        foldRows_spec (sec.name == some "thead" && !st.seenThead)
          (sec.name == some "tfoot" && !st.seenTfoot) (sec.name == some "tbody")
          (trsOf sec)
          { st with
              seenThead := st.seenThead || sec.name == some "thead",
              seenTfoot := st.seenTfoot || sec.name == some "tfoot" }
      obtain ⟨g1, g2, g3, g4, g5, g6⟩ :=
        ih ((trsOf sec).foldl
          (processRow (sec.name == some "thead" && !st.seenThead)
            (sec.name == some "tfoot" && !st.seenTfoot) (sec.name == some "tbody"))
          { st with
              seenThead := st.seenThead || sec.name == some "thead",
              seenTfoot := st.seenTfoot || sec.name == some "tfoot" })
      rw [f7, f8] at g1 g2 g3 g4 g5 g6
      have hscan : scanSections st (sec :: rest)
          = scanSections ((trsOf sec).foldl
              (processRow (sec.name == some "thead" && !st.seenThead)
                (sec.name == some "tfoot" && !st.seenTfoot) (sec.name == some "tbody"))
              { st with
                  seenThead := st.seenThead || sec.name == some "thead",
                  seenTfoot := st.seenTfoot || sec.name == some "tfoot" }) rest := by
        simp [scanSections, hs]
      have hgo : classifyRowsGo st.seenThead st.seenTfoot (sec :: rest)
          = classifySection st.seenThead st.seenTfoot sec
            ++ classifyRowsGo (st.seenThead || sec.name == some "thead")
                (st.seenTfoot || sec.name == some "tfoot") rest := by
        simp [classifyRowsGo, hs]
      rw [hscan, hgo]
      refine ⟨?_, ?_, ?_, ?_, ?_, ?_⟩
      · rw [g1, f1]
        simp [picks_append, classifySection, List.append_assoc]
      · rw [g2, f2]
        simp [picks_append, classifySection, List.append_assoc]
      · rw [g3, f3]
        simp [picks_append, classifySection, List.append_assoc]
      · rw [g4, f4]
        simp [picks_append, classifySection]
        omega
      · rw [g5, f5]
        simp [picks_append, classifySection]
        omega
      · rw [g6, f6]
        simp [picks_append, classifySection, List.map_append, List.foldl_append]
    · have h1 : scanSections st (sec :: rest) = scanSections st rest := by
        simp [scanSections, hs]
      have h2 : classifyRowsGo st.seenThead st.seenTfoot (sec :: rest)
          = classifyRowsGo st.seenThead st.seenTfoot rest := by
        simp [classifyRowsGo, hs]
      rw [h1, h2]
      exact ih st

/-- Claim C1: for every source table, the scanner returns all rows classified
Heading in source order, then all rows classified Body in source order, then
all rows classified Footer in source order, independent of where the sections
appeared; on the spec's example table the output has `headingRows = 1` and the
rows appear in the order of cell texts 1, 2, 3. -/
theorem c1_canonical_row_order :
    (∀ t : ViewNode,
        (scanTable t).rows
          = rowsOfClass t .heading ++ rowsOfClass t .body ++ rowsOfClass t .footer)
      ∧ (scanTable exampleTable).headingRows = 1
      ∧ (scanTable exampleTable).rows = [exampleTr1, exampleTr2, exampleTr3] := by
  refine ⟨?_, rfl, rfl⟩
  intro t
  obtain ⟨g1, g2, g3, g4, g5, g6⟩ := scanSections_spec t.getChildren initScanState
  show (scanSections initScanState t.getChildren).headRows
      ++ (scanSections initScanState t.getChildren).bodyRows
      ++ (scanSections initScanState t.getChildren).footRows = _
  rw [g1, g2, g3]
  simp [rowsOfClass, classifiedRows, initScanState]

theorem suffixAfterLastFalsy_append (l : List JSNum) (r : JSNum) :
    suffixAfterLastFalsy (l ++ [r])
      = if jsFalsyN r then [] else suffixAfterLastFalsy l ++ [r] := by
  by_cases h : jsFalsyN r = true
  · simp [suffixAfterLastFalsy, h]
  · simp [suffixAfterLastFalsy, h]

theorem jsMinList_singleton (r : JSNum) : jsMinList [r] = JSNum.int (jsToInt r) := by
  simp [jsMinList]

theorem jsMinList_append (s : List JSNum) (r : JSNum) (hs : s ≠ []) (m : Int)
    (hm : jsMinList s = JSNum.int m) :
    jsMinList (s ++ [r]) = JSNum.int (min m (jsToInt r)) := by
  cases s with
  | nil => exact absurd rfl hs
  | cons a rest =>
    simp [jsMinList, List.foldl_append] at hm ⊢
    rw [hm]

/-- The accumulated `headingColumns` of `scanTable`, characterized for
non-negative integer runs: `none` for no runs, `0` exactly when the last run
is falsy, and otherwise the (positive) minimum of the runs after the last
falsy one. -/
theorem hcFold_invariant :
    ∀ runs : List JSNum, runs.all isNNRun = true →
      (runs = [] ∧ runs.foldl hcStep none = none)
      ∨ (runs ≠ [] ∧ suffixAfterLastFalsy runs = []
          ∧ runs.foldl hcStep none = some (JSNum.int 0))
      ∨ (∃ m : Int, 0 < m ∧ runs.foldl hcStep none = some (JSNum.int m)
          ∧ jsMinList (suffixAfterLastFalsy runs) = JSNum.int m
          ∧ suffixAfterLastFalsy runs ≠ []) := by
  intro runs
  induction runs using List.reverseRecOn with
  | nil => intro _; left; exact ⟨rfl, rfl⟩
  | append_singleton l r ihl =>
    intro hall
    rw [List.all_append, Bool.and_eq_true] at hall
    obtain ⟨hl, hr1⟩ := hall
    have hr : isNNRun r = true := by simpa using hr1
    obtain ⟨n, hn0, hrn⟩ : ∃ n : Int, 0 ≤ n ∧ r = JSNum.int n := by
      cases r with
      | nan => simp [isNNRun] at hr
      | int k => exact ⟨k, by simpa [isNNRun] using hr, rfl⟩
    subst hrn
    have hfold : (l ++ [JSNum.int n]).foldl hcStep none
        = hcStep (l.foldl hcStep none) (JSNum.int n) := by
      simp [List.foldl_append]
    rcases ihl hl with ⟨hnil, hacc⟩ | ⟨hne, hsuf, hacc⟩ | ⟨m, hm0, hacc, hmin, hsne⟩
    · subst hnil
      by_cases hz : n = 0
      · subst hz
        right; left
        exact ⟨by simp, by decide, by decide⟩
      · have hb : (n == 0) = false := by simpa using hz
        right; right
        refine ⟨n, lt_of_le_of_ne hn0 (Ne.symm hz), ?_, ?_, ?_⟩
        · simp [hcStep, jsFalsyOpt]
        · simp [suffixAfterLastFalsy, jsFalsyN, hb, jsMinList, jsToInt]
        · simp [suffixAfterLastFalsy, jsFalsyN, hb]
    · by_cases hz : n = 0
      · subst hz
        right; left
        refine ⟨by simp, ?_, ?_⟩
        · rw [suffixAfterLastFalsy_append]; simp [jsFalsyN]
        · rw [hfold, hacc]; simp [hcStep, jsFalsyOpt, jsFalsyN]
      · have hb : (n == 0) = false := by simpa using hz
        right; right
        refine ⟨n, lt_of_le_of_ne hn0 (Ne.symm hz), ?_, ?_, ?_⟩
        · rw [hfold, hacc]; simp [hcStep, jsFalsyOpt, jsFalsyN]
        · rw [suffixAfterLastFalsy_append]
          simp [jsFalsyN, hb, hsuf, jsMinList, jsToInt]
        · rw [suffixAfterLastFalsy_append]
          simp [jsFalsyN, hb, hsuf]
    · have hmne : (m == 0) = false := by simpa using hm0.ne'
      by_cases hz : n = 0
      · subst hz
        right; left
        refine ⟨by simp, ?_, ?_⟩
        · rw [suffixAfterLastFalsy_append]; simp [jsFalsyN]
        · rw [hfold, hacc]
          simp [hcStep, jsFalsyOpt, jsFalsyN, jsLtOpt, hmne, hm0]
      · have hb : (n == 0) = false := by simpa using hz
        right; right
        have hnpos : 0 < n := lt_of_le_of_ne hn0 (Ne.symm hz)
        have hsufeq : suffixAfterLastFalsy (l ++ [JSNum.int n])
            = suffixAfterLastFalsy l ++ [JSNum.int n] := by
          rw [suffixAfterLastFalsy_append]; simp [jsFalsyN, hb]
        have hminapp : jsMinList (suffixAfterLastFalsy (l ++ [JSNum.int n]))
            = JSNum.int (min m n) := by
          rw [hsufeq, jsMinList_append _ _ hsne m hmin]; simp [jsToInt]
        by_cases hlt : n < m
        · refine ⟨n, hnpos, ?_, ?_, ?_⟩
          · rw [hfold, hacc]
            simp [hcStep, jsFalsyOpt, jsFalsyN, jsLtOpt, hmne, hlt]
          · rw [hminapp]; congr 1; omega
          · rw [hsufeq]; simp
        · refine ⟨m, hm0, ?_, ?_, ?_⟩
          · rw [hfold, hacc]
            simp [hcStep, jsFalsyOpt, jsFalsyN, jsLtOpt, hmne, hlt]
          · rw [hminapp]; congr 1; omega
          · rw [hsufeq]; simp

/-- `jsOr0` of the fold equals the minimum of the runs after the last falsy
run (0 when there is none), for non-negative integer runs. -/
theorem hcFold_characterization (runs : List JSNum) (h : runs.all isNNRun = true) :
    jsOr0 (runs.foldl hcStep none) = jsMinList (suffixAfterLastFalsy runs) := by
  rcases hcFold_invariant runs h with ⟨hnil, hacc⟩ | ⟨_, hsuf, hacc⟩ | ⟨m, hm0, hacc, hmin, _⟩
  · subst hnil; simp [hacc, jsOr0, suffixAfterLastFalsy, jsMinList]
  · rw [hacc, hsuf]; simp [jsOr0, jsFalsyN, jsMinList]
  · rw [hacc, hmin]; simp [jsOr0, jsFalsyN, hm0.ne']

/-- `scanTable`'s `headingColumns` output is the `hcStep` fold over the body
rows' leading runs, in document order, finished by `|| 0`. -/
theorem scanTable_headingColumns_fold (t : ViewNode) :
    (scanTable t).headingColumns = jsOr0 ((bodyRuns t).foldl hcStep none) := by
  obtain ⟨g1, g2, g3, g4, g5, g6⟩ := scanSections_spec t.getChildren initScanState
  show jsOr0 (scanSections initScanState t.getChildren).headingColumns = _
  rw [g6]
  simp [bodyRuns, rowsOfClass, classifiedRows, initScanState]

/-- Claim C2 counterexample: on a table whose body rows have leading
heading-cell runs 0 then 3, the scanner emits `headingColumns = 3`, while the
minimum over all body rows (the claimed value, and in particular the claim
that a body row with leading run 0 forces `headingColumns = 0`) is 0. -/
theorem c2_min_claim_counterexample :
    (scanTable exTwoRuns).headingColumns = JSNum.int 3
      ∧ claimedMinHeadingColumns exTwoRuns = JSNum.int 0
      ∧ (scanTable exTwoRuns).headingColumns ≠ claimedMinHeadingColumns exTwoRuns :=
  ⟨by decide, by decide, by decide⟩

/-- Claim C2 (amended): when every body row's leading run is a non-negative
integer, the scanner's `headingColumns` equals the minimum of the leading runs
of the body rows strictly after the last body row whose run is 0 (over all
body rows when none is 0), and 0 when there are no such rows — because a
tracked value of 0 is falsy and is overwritten by the next body row's run. -/
theorem c2_heading_columns (t : ViewNode)
    (h : (bodyRuns t).all isNNRun = true) :
    (scanTable t).headingColumns = jsMinList (suffixAfterLastFalsy (bodyRuns t)) := by
  rw [scanTable_headingColumns_fold t]
  exact hcFold_characterization (bodyRuns t) h

/-- Witness for the amended C2 theorem at the two-run table. -/
theorem c2_heading_columns_witness :
    (bodyRuns exTwoRuns).all isNNRun = true
      ∧ (scanTable exTwoRuns).headingColumns
          = jsMinList (suffixAfterLastFalsy (bodyRuns exTwoRuns)) :=
  ⟨by decide, c2_heading_columns exTwoRuns (by decide)⟩

theorem classifyRowsGo_append (xs ys : List ViewNode) (sH sF : Bool) :
    classifyRowsGo sH sF (xs ++ ys)
      = classifyRowsGo sH sF xs
        ++ classifyRowsGo (seenAfter sH "thead" xs) (seenAfter sF "tfoot" xs) ys := by
  induction xs generalizing sH sF with
  | nil => simp [classifyRowsGo, seenAfter]
  | cons sec rest ih =>
    by_cases hs : isSectionName sec.name = true
    · simp [classifyRowsGo, hs, ih, seenAfter, List.any_cons, Bool.or_assoc]
    · have hth : (sec.name == some "thead") = false := by
        cases hb : sec.name == some "thead"
        · rfl
        · have heq : sec.name = some "thead" := by simpa using hb
          rw [heq] at hs; simp [isSectionName] at hs
      have htf : (sec.name == some "tfoot") = false := by
        cases hb : sec.name == some "tfoot"
        · rfl
        · have heq : sec.name = some "tfoot" := by simpa using hb
          rw [heq] at hs; simp [isSectionName] at hs
      simp [classifyRowsGo, hs, ih, seenAfter, List.any_cons, hth, htf]

/-- Claim C4: in a table with more than one `<thead>` (resp. `<tfoot>`), every
row of a later `<thead>`/`<tfoot>` is classified Body — even when all of its
cells are `<th>` — because the implicit all-heading test only applies to
`<tbody>` sections and the Heading/Footer branches only match the first
section of their kind. -/
theorem c4_later_sections_demoted (t sec : ViewNode) (pre post : List ViewNode)
    (hch : t.getChildren = pre ++ sec :: post)
    (hlater : (sec.name = some "thead" ∧ pre.any (fun s => s.name == some "thead") = true)
        ∨ (sec.name = some "tfoot" ∧ pre.any (fun s => s.name == some "tfoot") = true)) :
    classifiedRows t = classifyRowsGo false false pre
      ++ (trsOf sec).map (fun tr => (tr, RowClass.body))
      ++ classifyRowsGo (seenAfter false "thead" (pre ++ [sec]))
          (seenAfter false "tfoot" (pre ++ [sec])) post := by
  unfold classifiedRows
  rw [hch, classifyRowsGo_append]
  rcases hlater with ⟨hname, hpre⟩ | ⟨hname, hpre⟩
  · have hsec : isSectionName sec.name = true := by simp [isSectionName, hname]
    have hseenH : seenAfter false "thead" pre = true := by simp [seenAfter, hpre]
    have hstep : classifyRowsGo (seenAfter false "thead" pre)
          (seenAfter false "tfoot" pre) (sec :: post)
        = classifySection (seenAfter false "thead" pre) (seenAfter false "tfoot" pre) sec
          ++ classifyRowsGo ((seenAfter false "thead" pre) || sec.name == some "thead")
              ((seenAfter false "tfoot" pre) || sec.name == some "tfoot") post := by
      simp [classifyRowsGo, hsec]
    rw [hstep, ← List.append_assoc]
    congr 1
    · congr 1
      simp [classifySection, classRow, isHeadingRow, hname, hseenH]
    · congr 1 <;> simp [seenAfter, List.any_append, hname]
  · have hsec : isSectionName sec.name = true := by simp [isSectionName, hname]
    have hseenF : seenAfter false "tfoot" pre = true := by simp [seenAfter, hpre]
    have hstep : classifyRowsGo (seenAfter false "thead" pre)
          (seenAfter false "tfoot" pre) (sec :: post)
        = classifySection (seenAfter false "thead" pre) (seenAfter false "tfoot" pre) sec
          ++ classifyRowsGo ((seenAfter false "thead" pre) || sec.name == some "thead")
              ((seenAfter false "tfoot" pre) || sec.name == some "tfoot") post := by
      simp [classifyRowsGo, hsec]
    rw [hstep, ← List.append_assoc]
    congr 1
    · congr 1
      simp [classifySection, classRow, isHeadingRow, hname, hseenF]
    · congr 1 <;> simp [seenAfter, List.any_append, hname]

/-- Witness for C4 at a table with two `<thead>` sections: the second
`<thead>`'s all-`<th>` row lands in the Body bucket. -/
theorem c4_later_sections_demoted_witness :
    classifiedRows exTwoTheads
      = classifyRowsGo false false [exFirstThead]
        ++ (trsOf exSecondThead).map (fun tr => (tr, RowClass.body))
        ++ classifyRowsGo (seenAfter false "thead" ([exFirstThead] ++ [exSecondThead]))
            (seenAfter false "tfoot" ([exFirstThead] ++ [exSecondThead])) [] :=
  c4_later_sections_demoted exTwoTheads exSecondThead [exFirstThead] [] rfl
    (Or.inl ⟨rfl, by decide⟩)

/-- Claim C5 counterexample: `exMixedTr` sits in a `<tbody>`, has exactly one
cell, and every one of its cells is a `<th>`, yet the scanner classifies it
Body (so `headingRows = 0`), because the code tests every *child* (the text
node included), not every cell. -/
theorem c5_cells_counterexample :
    (cellChildren exMixedTr).length = 1
      ∧ (cellChildren exMixedTr).all (fun e => e.name == some "th") = true
      ∧ classifiedRows exMixedTable = [(exMixedTr, RowClass.body)]
      ∧ (scanTable exMixedTable).headingRows = 0 :=
  ⟨rfl, rfl, rfl, rfl⟩

/-- Claim C5 (amended): a `<tbody>` row with zero cells is never classified
Heading, and a `<tbody>` row is classified Heading — regardless of its
position among siblings or of earlier sections — iff it has at least one
child and every one of its children (text nodes included, not just its cells)
is a `<th>` element. -/
theorem c5_tbody_row_classification (t sec : ViewNode) (pre post : List ViewNode)
    (hch : t.getChildren = pre ++ sec :: post)
    (hname : sec.name = some "tbody") :
    (classifiedRows t = classifyRowsGo false false pre
        ++ (trsOf sec).map (fun tr => (tr, classRow false false true tr))
        ++ classifyRowsGo (seenAfter false "thead" (pre ++ [sec]))
            (seenAfter false "tfoot" (pre ++ [sec])) post)
      ∧ (∀ tr : ViewNode, cellChildren tr = [] → classRow false false true tr = RowClass.body)
      ∧ (∀ tr : ViewNode, classRow false false true tr = RowClass.heading
          ↔ (tr.getChildren ≠ []
              ∧ tr.getChildren.all (fun e => e.name == some "th") = true)) := by
  refine ⟨?_, ?_, ?_⟩
  · unfold classifiedRows
    rw [hch, classifyRowsGo_append]
    have hsec : isSectionName sec.name = true := by simp [isSectionName, hname]
    have hstep : classifyRowsGo (seenAfter false "thead" pre)
          (seenAfter false "tfoot" pre) (sec :: post)
        = classifySection (seenAfter false "thead" pre) (seenAfter false "tfoot" pre) sec
          ++ classifyRowsGo ((seenAfter false "thead" pre) || sec.name == some "thead")
              ((seenAfter false "tfoot" pre) || sec.name == some "tfoot") post := by
      simp [classifyRowsGo, hsec]
    rw [hstep, ← List.append_assoc]
    congr 1
    · congr 1
      simp [classifySection, hname]
    · congr 1 <;> simp [seenAfter, List.any_append, hname]
  · intro tr hcells
    by_cases hemp : tr.getChildren = []
    · simp [classRow, isHeadingRow, hemp]
    · have hnotall : tr.getChildren.all (fun e => e.name == some "th") = false := by
        cases hall : tr.getChildren.all (fun e => e.name == some "th")
        · rfl
        · exfalso
          have hfe : cellChildren tr = tr.getChildren := by
            unfold cellChildren
            apply List.filter_eq_self.mpr
            intro a ha
            have hth := List.all_eq_true.mp hall a ha
            simp only [Bool.or_eq_true]
            exact Or.inl hth
          rw [hcells] at hfe
          exact hemp hfe.symm
      simp [classRow, isHeadingRow, hnotall]
  · intro tr
    by_cases hemp : tr.getChildren = []
    · simp [classRow, isHeadingRow, hemp]
    · have hne : tr.getChildren.isEmpty = false := by
        simpa [List.isEmpty_iff] using hemp
      by_cases hall : tr.getChildren.all (fun e => e.name == some "th") = true
      · simp [classRow, isHeadingRow, hne, hall, hemp]
      · have hall2 : tr.getChildren.all (fun e => e.name == some "th") = false := by
          cases h2 : tr.getChildren.all (fun e => e.name == some "th")
          · rfl
          · exact absurd h2 hall
        simp [classRow, isHeadingRow, hne, hall2, hemp]

/-- Witness for the amended C5 theorem at the mixed-children table. -/
theorem c5_tbody_row_classification_witness :
    classifiedRows exMixedTable
      = classifyRowsGo false false []
        ++ (trsOf exMixedTbody).map (fun tr => (tr, classRow false false true tr))
        ++ classifyRowsGo (seenAfter false "thead" ([] ++ [exMixedTbody]))
            (seenAfter false "tfoot" ([] ++ [exMixedTbody])) [] :=
  (c5_tbody_row_classification exMixedTable exMixedTbody [] [] rfl rfl).1

theorem foldl_append_nil {α β : Type} (f : α → List β) :
    ∀ l : List α, (∀ a ∈ l, f a = []) →
      ∀ acc : List β, l.foldl (fun acc r => acc ++ f r) acc = acc := by
  intro l
  induction l with
  | nil => intro _ acc; rfl
  | cons a rest ih =>
    intro h acc
    have ha : f a = [] := h a (by simp)
    simp only [List.foldl_cons, ha, List.append_nil]
    exact ih (fun b hb => h b (by simp [hb])) acc

/-- Claim C3: when the table handler runs (not consumed, safe insert accepted)
and the conversions of the scanned rows and of the remaining children all
produce nothing, the handler synthesizes exactly one row containing exactly
one empty cell, so the reported table is never childless. -/
theorem c3_empty_table_repair (schemaAccepts : ModelNode → Bool)
    (convertRowAt convertRemainingChildren : ViewNode → List ModelNode)
    (idOf : ViewNode → Nat) (viewTable : ViewNode) (m : Consumable)
    (htest : testAspects m (idOf viewTable) ["name"] = true)
    (hschema : schemaAccepts
        (ModelNode.node "table" (tableAttributes (scanTable viewTable)) []) = true)
    (hrows : (scanTable viewTable).rows.all (fun r => (convertRowAt r).isEmpty) = true)
    (hrest : (convertRemainingChildren viewTable).isEmpty = true) :
    (upcastTable schemaAccepts convertRowAt convertRemainingChildren idOf viewTable m).result
      = some (ModelNode.node "table" (tableAttributes (scanTable viewTable))
          [ModelNode.node "tableRow" [] [ModelNode.node "tableCell" [] []]]) := by
  have hfold : (scanTable viewTable).rows.foldl
      (fun acc r => acc ++ convertRowAt r) [] = [] := by
    apply foldl_append_nil
    intro r hr
    have := List.all_eq_true.mp hrows r hr
    simpa [List.isEmpty_iff] using this
  have hrest2 : convertRemainingChildren viewTable = [] := by
    simpa [List.isEmpty_iff] using hrest
  simp [upcastTable, htest, hschema, hfold, hrest2, emptyTableCell]

/-- Witness for C3 at a childless source table with oracles producing
nothing. -/
theorem c3_empty_table_repair_witness :
    (upcastTable wSchemaYes wNoRows wNoRows wIdOf wEmptyViewTable wNoConsume).result
      = some (ModelNode.node "table" (tableAttributes (scanTable wEmptyViewTable))
          [ModelNode.node "tableRow" [] [ModelNode.node "tableCell" [] []]]) :=
  c3_empty_table_repair wSchemaYes wNoRows wNoRows wIdOf wEmptyViewTable wNoConsume
    rfl rfl rfl rfl

/-- Claim C7: when the safe insert of the freshly created table is rejected,
the table handler returns with the consumable state untouched and no result;
the source table's name aspect is consumed (only) after a successful safe
insert. -/
theorem c7_safe_insert_rejection (schemaAccepts : ModelNode → Bool)
    (convertRowAt convertRemainingChildren : ViewNode → List ModelNode)
    (idOf : ViewNode → Nat) (viewTable : ViewNode) (m : Consumable)
    (htest : testAspects m (idOf viewTable) ["name"] = true) :
    (schemaAccepts (ModelNode.node "table" (tableAttributes (scanTable viewTable)) [])
          = false →
        upcastTable schemaAccepts convertRowAt convertRemainingChildren idOf viewTable m
          = ⟨m, none⟩)
      ∧ (schemaAccepts (ModelNode.node "table" (tableAttributes (scanTable viewTable)) [])
          = true →
        (upcastTable schemaAccepts convertRowAt convertRemainingChildren idOf
            viewTable m).consumed (idOf viewTable, "name") = true) := by
  constructor
  · intro hs
    simp [upcastTable, htest, hs]
  · intro hs
    simp only [upcastTable, htest, hs]
    norm_num
    split <;> simp [consumeAspects]

/-- Witness for C7: a rejecting schema leaves everything unconsumed with no
result; an accepting schema consumes the name aspect. -/
theorem c7_safe_insert_rejection_witness :
    (upcastTable wSchemaNo wNoRows wNoRows wIdOf wEmptyViewTable wNoConsume
        = ⟨wNoConsume, none⟩)
      ∧ ((upcastTable wSchemaYes wNoRows wNoRows wIdOf wEmptyViewTable wNoConsume).consumed
          (wIdOf wEmptyViewTable, "name") = true) :=
  ⟨(c7_safe_insert_rejection wSchemaNo wNoRows wNoRows wIdOf wEmptyViewTable wNoConsume
      rfl).1 rfl,
   (c7_safe_insert_rejection wSchemaYes wNoRows wNoRows wIdOf wEmptyViewTable wNoConsume
      rfl).2 rfl⟩

/-- Claim C6: when the figure handler has consumed the figure's
{name, class "table"} aspects but dispatching the inner table produces no
model table, the handler reverts exactly that consumption and reports
nothing, so — provided the inner dispatch did not itself touch the figure's
aspects — the figure's consumable state is as before and other handlers can
still claim it. -/
theorem c6_figure_revert
    (convertItem : ViewNode → Consumable → Option ModelNode × Consumable)
    (appendRemainingChildren : ViewNode → ModelNode → ModelNode)
    (idOf : ViewNode → Nat) (figure viewTable : ViewNode) (m : Consumable)
    (htestF : testAspects m (idOf figure) ["name", "class:table"] = true)
    (hfind : getViewTableFromFigure figure = some viewTable)
    (htestT : testAspects m (idOf viewTable) ["name"] = true)
    (hnone : (convertItem viewTable
        (consumeAspects m (idOf figure) ["name", "class:table"])).1 = none)
    (huntouched : ∀ a : String,
      (convertItem viewTable (consumeAspects m (idOf figure) ["name", "class:table"])).2
          (idOf figure, a)
        = consumeAspects m (idOf figure) ["name", "class:table"] (idOf figure, a)) :
    (upcastTableFigure convertItem appendRemainingChildren idOf figure m).2 = none
      ∧ ∀ a : String,
          (upcastTableFigure convertItem appendRemainingChildren idOf figure m).1
              (idOf figure, a)
            = m (idOf figure, a) := by
  have hout : upcastTableFigure convertItem appendRemainingChildren idOf figure m
      = (revertAspects (convertItem viewTable
            (consumeAspects m (idOf figure) ["name", "class:table"])).2
          (idOf figure) ["name", "class:table"], none) := by
    unfold upcastTableFigure
    rw [hfind]
    simp only [htestF, htestT, Bool.not_true, Bool.false_eq_true, if_false]
    rcases hc : convertItem viewTable
        (consumeAspects m (idOf figure) ["name", "class:table"]) with ⟨r, m2⟩
    rw [hc] at hnone
    simp only at hnone
    subst hnone
    simp
  have hm : m (idOf figure, "name") = false
      ∧ m (idOf figure, "class:table") = false := by
    simpa [testAspects] using htestF
  rw [hout]
  refine ⟨rfl, ?_⟩
  intro a
  by_cases hmem : a = "name" ∨ a = "class:table"
  · have hcont : (["name", "class:table"].contains a) = true := by
      rcases hmem with h | h <;> simp [h]
    have hma : m (idOf figure, a) = false := by
      rcases hmem with h | h
      · rw [h]; exact hm.1
      · rw [h]; exact hm.2
    simp only [revertAspects]
    rw [hcont]
    simp [hma]
  · have hcont : (["name", "class:table"].contains a) = false := by
      push_neg at hmem
      simp [hmem.1, hmem.2]
    simp only [revertAspects]
    rw [hcont]
    simp only [Bool.and_false, Bool.false_eq_true, if_false]
    rw [huntouched a]
    simp only [consumeAspects]
    rw [hcont]
    simp

/-- Witness for C6: a failing inner dispatch that consumes nothing leaves the
figure unconsumed. -/
theorem c6_figure_revert_witness :
    (upcastTableFigure wConvNone wAppendId wIdOf wFigure wNoConsume).2 = none
      ∧ (upcastTableFigure wConvNone wAppendId wIdOf wFigure wNoConsume).1
          (wIdOf wFigure, "class:table") = wNoConsume (wIdOf wFigure, "class:table") :=
  ⟨(c6_figure_revert wConvNone wAppendId wIdOf wFigure wEmptyViewTable wNoConsume
      rfl rfl rfl rfl (fun _ => rfl)).1,
   (c6_figure_revert wConvNone wAppendId wIdOf wFigure wEmptyViewTable wNoConsume
      rfl rfl rfl rfl (fun _ => rfl)).2 "class:table"⟩

/-- Claim C8: the high-priority row handler stops the conversion event iff the
row is empty and the destination cursor's offset within its parent is exactly
0; an otherwise identical empty row at offset 1 or greater is never
suppressed by it. -/
theorem c8_skip_empty_row :
    (∀ (v : ViewNode) (i : Nat),
        skipEmptyTableRow v i = true ↔ (v.isEmptyNode = true ∧ i = 0))
      ∧ (∀ (v : ViewNode) (i : Nat), skipEmptyTableRow v (i + 1) = false) := by
  constructor
  · intro v i
    simp [skipEmptyTableRow]
  · intro v i
    simp [skipEmptyTableRow]

/-- Claim C9: when a model range was produced for the cell, an empty source
cell gets exactly one empty paragraph inserted at the cell's start; otherwise,
a cell whose children are all markers ends up with a sole paragraph child
containing those markers in their original order. -/
theorem c9_cell_repair (viewItem : ViewNode) (nm : String)
    (attrs : List (String × Int)) (children : List ModelNode) :
    (viewItem.isEmptyNode = true →
        ensureParagraphInTableCell viewItem (some (.node nm attrs children))
          = some (.node nm attrs (.node "paragraph" [] [] :: children)))
      ∧ (viewItem.isEmptyNode = false → children.all isMarkerNode = true →
        ensureParagraphInTableCell viewItem (some (.node nm attrs children))
          = some (.node nm attrs [.node "paragraph" [] children])) := by
  constructor
  · intro h
    simp [ensureParagraphInTableCell, h]
  · intro h hmarks
    simp [ensureParagraphInTableCell, h, hmarks]

/-- Witness for C9: an empty cell gains an empty paragraph; a marker-only
cell ends as one paragraph holding both markers in order. -/
theorem c9_cell_repair_witness :
    ensureParagraphInTableCell wTdEmpty (some (ModelNode.node "tableCell" [] []))
        = some (ModelNode.node "tableCell" [] [ModelNode.node "paragraph" [] []])
      ∧ ensureParagraphInTableCell wTdText (some wMarkerCell)
        = some (ModelNode.node "tableCell" []
            [ModelNode.node "paragraph" [] [wMarker1, wMarker2]]) :=
  ⟨(c9_cell_repair wTdEmpty "tableCell" [] []).1 rfl,
   (c9_cell_repair wTdText "tableCell" [] [wMarker1, wMarker2]).2 rfl rfl⟩

/-- Claim C10 (implicit): a non-empty source cell whose model cell has zero
children satisfies the all-markers check vacuously and gains an empty
paragraph; consequently the repaired cell always has at least one child. -/
theorem c10_cell_never_childless :
    (∀ (v : ViewNode) (nm : String) (attrs : List (String × Int)),
        v.isEmptyNode = false →
        ensureParagraphInTableCell v (some (.node nm attrs []))
          = some (.node nm attrs [.node "paragraph" [] []]))
      ∧ (∀ (v : ViewNode) (c : ModelNode),
          1 ≤ ((repairedCell v c).children).length) := by
  constructor
  · intro v nm attrs h
    simp [ensureParagraphInTableCell, h]
  · intro v c
    rcases c with ⟨nm, attrs, children⟩
    by_cases h1 : v.isEmptyNode = true
    · simp [repairedCell, ensureParagraphInTableCell, h1, ModelNode.children]
    · have h1f : v.isEmptyNode = false := by simpa using h1
      by_cases h2 : children.all isMarkerNode = true
      · simp [repairedCell, ensureParagraphInTableCell, h1f, h2, ModelNode.children]
      · have h2f : children.all isMarkerNode = false := by simpa using h2
        simp only [repairedCell, ensureParagraphInTableCell, h1f, h2f,
          Bool.false_eq_true, if_false, Option.getD_some, ModelNode.children]
        cases children with
        | nil => simp at h2f
        | cons a rest => simp

/-- Witness for C10 at a non-empty source cell whose model cell is childless. -/
theorem c10_cell_never_childless_witness :
    ensureParagraphInTableCell wTdText (some (ModelNode.node "tableCell" [] []))
        = some (ModelNode.node "tableCell" [] [ModelNode.node "paragraph" [] []])
      ∧ 1 ≤ ((repairedCell wTdText (ModelNode.node "tableCell" [] [])).children).length :=
  ⟨c10_cell_never_childless.1 wTdText "tableCell" [] rfl,
   c10_cell_never_childless.2 wTdText (ModelNode.node "tableCell" [] [])⟩
